import Mathlib

/-!
Shallow embedding of the IPTV catalog reconciler (`blank.py`) and proofs of
the specified properties.  Strings are modelled as Lean `String`s over their
character lists; the network is modelled as an explicit oracle (`Net`),
where `none` results stand for timeouts, connection failures and other
exceptions of the Python `requests` calls.
-/

/-- ASCII lower-casing of one character, as Python `str.lower` acts on ASCII. -/
def lowerChar (c : Char) : Char :=
  if 'A' ≤ c && c ≤ 'Z' then Char.ofNat (c.toNat + 32) else c

/-- ASCII upper-casing of one character, as Python `str.upper` acts on ASCII. -/
def upperChar (c : Char) : Char :=
  if 'a' ≤ c && c ≤ 'z' then Char.ofNat (c.toNat - 32) else c

/-- Python `s.lower()` (ASCII fragment). -/
def lowerStr (s : String) : String := ⟨s.data.map lowerChar⟩

/-- Python `s.upper()` (ASCII fragment). -/
def upperStr (s : String) : String := ⟨s.data.map upperChar⟩

/-- Substring test on character lists: does `pat` occur contiguously in `hay`? -/
def containsL : List Char → List Char → Bool
  | [], pat => pat.isEmpty
  | c :: t, pat => pat.isPrefixOf (c :: t) || containsL t pat

/-- Python `pat in hay` for strings. -/
def strContains (hay pat : String) : Bool := containsL hay.data pat.data

/-- Worker for `removeAllL`: `skip` counts characters still to be discarded
from the currently matched occurrence. -/
def removeAllAux (pat : List Char) : List Char → Nat → List Char
  | [], _ => []
  | _ :: t, skip + 1 => removeAllAux pat t skip
  | c :: t, 0 =>
    if pat.isPrefixOf (c :: t) && !pat.isEmpty then
      removeAllAux pat t (pat.length - 1)
    else
      c :: removeAllAux pat t 0

/-- Python `s.replace(pat, '')`: remove all (leftmost, non-overlapping)
occurrences of `pat`. -/
def removeAllL (pat : List Char) (l : List Char) : List Char :=
  removeAllAux pat l 0

/-- `removeAllL` lifted to `String`. -/
def removeAllStr (pat s : String) : String := ⟨removeAllL pat.data s.data⟩

/-- The ASCII whitespace stripped by Python `str.strip()`. -/
def isSpaceChar (c : Char) : Bool :=
  c = ' ' || c = '\t' || c = '\n' || c = '\r' || c = '\x0b' || c = '\x0c'

/-- Python `s.strip()` on a character list. -/
def trimL (l : List Char) : List Char :=
  ((l.dropWhile isSpaceChar).reverse.dropWhile isSpaceChar).reverse

/-- Python `s.strip()`. -/
def trimStr (s : String) : String := ⟨trimL s.data⟩

/-- Python `s.split(sep)` for a one-character separator (keeps empty pieces,
and yields one empty piece for the empty string, exactly as Python does). -/
def splitCharL (sep : Char) : List Char → List (List Char)
  | [] => [[]]
  | c :: t =>
    let r := splitCharL sep t
    if c = sep then [] :: r
    else
      match r with
      | [] => [[c]]
      | h :: rest => (c :: h) :: rest

/-- The suffix cleaning applied to channel titles:
`.replace('(TEMPORARY)','').replace('GEO-BLOCKED','').replace('(LATENCY)','').strip()`. -/
def cleanSuffixes (s : String) : String :=
  trimStr (removeAllStr "(LATENCY)" (removeAllStr "GEO-BLOCKED" (removeAllStr "(TEMPORARY)" s)))

/-- `local_indicators` of `is_channel_mismatch`. -/
def local_indicators : List String :=
  ["LOCAL", "AFFILIATE", "KDFW", "KTVU", "WTTG", "WNYW", "KTTV",
   "FOX 2", "FOX 4", "FOX 5", "FOX 7", "FOX 9", "FOX 10", "FOX 11", "FOX 13",
   "FOX 25", "FOX 26", "FOX 29", "FOX 32", "FOX 35", "FOX 46",
   "WTXF", "WFXT", "WJBK", "WTVT", "WAGA", "KRIV",
   "WASHINGTON", "NEW YORK", "LOS ANGELES", "CHICAGO", "DALLAS", "ATLANTA",
   "DETROIT", "MIAMI", "BOSTON", "PHOENIX", "SEATTLE", "HOUSTON"]

/-- One entry of the `mismatch_rules` table. -/
structure MismatchRule where
  key : String
  avoid : List String
  penalty_score : Int
  reason : String
deriving DecidableEq

/-- The `mismatch_rules` table of `is_channel_mismatch`, in source order. -/
def mismatch_rules : List MismatchRule :=
  [⟨"FOX NEWS",
    ["FOX BUSINESS", "FOX SPORTS", "FOX DEPORTES", "FOX SOCCER", "FS1", "FS2", "FOX MOVIES", "FOX LIFE"],
    -50, "Wrong Fox network"⟩,
   ⟨"ESPN",
    ["DEPORTES", "DEPORTIVAS", "SPANISH", "LATINO", "PLUS", "ESPN+", "ESPN2", "ESPN 2", "ESPNU", "ESPN U", "COLLEGE"],
    -50, "Secondary/International ESPN variant"⟩,
   ⟨"ESPN2",
    ["DEPORTES", "SPANISH", "LATINO", "PLUS"],
    -50, "Wrong ESPN variant"⟩,
   ⟨"AMC",
    ["AMC+", "PLUS", "AMCPLUS", "SUNDANCE", "IFC", "SHUDDER", "ACORN"],
    -40, "AMC secondary service, not main channel"⟩,
   ⟨"HBO",
    ["HBO2", "HBO 2", "HBO3", "HBO 3", "HBO MAX", "HBOMAX", "MAX", "FAMILY", "COMEDY", "ZONE", "SIGNATURE", "LATINO"],
    -40, "HBO secondary channel, not main HBO"⟩,
   ⟨"CNN",
    ["CNN INTERNATIONAL", "CNN ESPAÑOL", "CNN TURK", "CNN BRASIL", "HLN"],
    -30, "International CNN variant"⟩,
   ⟨"MSNBC",
    ["CNBC", "NBC SPORTS", "NBC 2", "NBC 4", "NBC 5", "NBC 7", "WNBC", "KNBC"],
    -40, "Wrong NBC network"⟩,
   ⟨"CBS NEWS",
    ["CBS SPORTS", "CBS 2", "CBS 3", "CBS 4", "CBS 5", "WCBS", "KCBS", "LOCAL"],
    -40, "Local CBS station, not CBS News"⟩,
   ⟨"ABC NEWS",
    ["ABC 7", "ABC 13", "WABC", "KABC", "WLS", "LOCAL"],
    -40, "Local ABC station, not ABC News"⟩,
   ⟨"DISCOVERY",
    ["DISCOVERY+", "PLUS", "ID", "INVESTIGATION", "SCIENCE", "FAMILIA", "TURBO", "THEATER"],
    -30, "Discovery secondary channel"⟩,
   ⟨"NATIONAL GEOGRAPHIC",
    ["NAT GEO WILD", "WILD", "MUNDO", "LATIN"],
    -30, "Nat Geo secondary channel"⟩,
   ⟨"CARTOON NETWORK",
    ["BOOMERANG", "TOONAMI", "CARTOON NETWORK ARABIC"],
    -30, "Wrong Cartoon Network variant"⟩,
   ⟨"DISNEY CHANNEL",
    ["DISNEY+", "DISNEY PLUS", "DISNEY XD", "DISNEY JR", "DISNEY JUNIOR"],
    -35, "Disney secondary channel"⟩,
   ⟨"TBS",
    ["TNT", "TRUTV", "TCM"],
    -40, "Wrong Turner network"⟩,
   ⟨"TNT",
    ["TBS", "TRUTV", "TCM"],
    -40, "Wrong Turner network"⟩]

/-- `secondary_indicators` of `is_channel_mismatch`. -/
def secondary_indicators : List String :=
  ["PLUS", "+", "2", "3", "HD", "EXTRA", "XTRA", "FAMILIA", "LATINO", "LATIN",
   "SPANISH", "ESPAÑOL", "ALTERNATIVE", "ALT"]

/-- The Fox-News-specific first layer of `is_channel_mismatch`: local-affiliate
and missing-keyword rejection.  `none` means the layer does not fire. -/
def foxGuard (channel_clean stream_name_upper stream_title_upper url_lower : String) :
    Option (Bool × Option String × Int) :=
  if strContains channel_clean "FOX NEWS" || strContains channel_clean "FOXNEWS" then
    if local_indicators.any (fun i => strContains stream_name_upper i || strContains stream_title_upper i) then
      some (true, some "Local Fox affiliate, not Fox News Channel", -60)
    else if !strContains stream_name_upper "NEWS" && !strContains stream_title_upper "NEWS"
        && !strContains stream_name_upper "FNC" then
      if !strContains url_lower "foxnews" && !strContains url_lower "fox_news"
          && !strContains url_lower "fox-news" then
        some (true, some "Fox channel but not Fox News", -55)
      else none
    else none
  else none

/-- Does one of the rule's avoid terms occur in the candidate's name, title or URL? -/
def avoidHit (r : MismatchRule) (stream_name_upper stream_title_upper url_lower : String) : Bool :=
  r.avoid.any (fun t =>
    strContains stream_name_upper t || strContains stream_title_upper t || strContains url_lower t)

/-- The `mismatch_rules` loop of `is_channel_mismatch`: the first rule whose key
occurs in the cleaned channel title and one of whose avoid terms occurs in the
candidate's name, title or URL decides; other rules are passed over. -/
def rulesLoop (channel_clean stream_name_upper stream_title_upper url_lower : String) :
    List MismatchRule → Option (Bool × Option String × Int)
  | [] => none
  | r :: rest =>
    if strContains channel_clean r.key && avoidHit r stream_name_upper stream_title_upper url_lower then
      some (true, some r.reason, r.penalty_score)
    else
      rulesLoop channel_clean stream_name_upper stream_title_upper url_lower rest

/-- The generic secondary-variant loop of `is_channel_mismatch` (last resort). -/
def genericLoop (channel_clean stream_name_upper : String) :
    List String → Option (Bool × Option String × Int)
  | [] => none
  | ind :: rest =>
    if (strContains stream_name_upper channel_clean && strContains stream_name_upper ind)
        && ["2", "3", "PLUS", "+", "EXTRA", "XTRA"].contains ind then
      some (true, some ("Secondary channel variant (" ++ ind ++ ")"), -25)
    else
      genericLoop channel_clean stream_name_upper rest

/-- `is_channel_mismatch(channel_title, stream_name, stream_title, url)`:
returns `(is_mismatch, reason, penalty_score)`. -/
def is_channel_mismatch (channel_title stream_name stream_title url : String) :
    Bool × Option String × Int :=
  let stream_name_upper := upperStr stream_name
  let stream_title_upper := upperStr stream_title
  let url_lower := lowerStr url
  let channel_clean := cleanSuffixes (upperStr channel_title)
  match foxGuard channel_clean stream_name_upper stream_title_upper url_lower with
  | some r => r
  | none =>
    match rulesLoop channel_clean stream_name_upper stream_title_upper url_lower mismatch_rules with
    | some r => r
    | none =>
      match genericLoop channel_clean stream_name_upper secondary_indicators with
      | some r => r
      | none => (false, none, 0)

/-- Resolution metadata of a candidate stream (`stream_data['resolution']`,
with Python's `.get('width', 0)` / `.get('height', 0)` defaults). -/
structure Resolution where
  width : Nat
  height : Nat
deriving DecidableEq

/-- One entry of the external candidate feed.  Missing dictionary keys are
modelled by the empty string / `none`; `mismatchReason` models the dynamic
`'_mismatch_reason'` key written by `get_stream_quality_score`. -/
structure StreamData where
  name : String
  title : String
  url : String
  country : String
  resolution : Option Resolution
  mismatchReason : Option String
deriving DecidableEq

/-- ASCII decimal digit test (the `\d` of the URL resolution pattern). -/
def isDig (c : Char) : Bool := '0' ≤ c && c ≤ '9'

/-- Numeric value of a digit string (Python `int`). -/
def digitsToNat (l : List Char) : Nat :=
  l.foldl (fun n c => n * 10 + (c.toNat - 48)) 0

/-- Attempt the second half of the pattern `(\d{3,4})[x_\-](\d{3,4})` after a
first group `g1`: a separator followed by a greedy 3-or-4-digit group. -/
def trySep (g1 : List Char) (rest : List Char) : Option (Nat × Nat) :=
  match rest with
  | [] => none
  | c :: r2 =>
    if c = 'x' || c = '_' || c = '-' then
      let d2 := r2.takeWhile isDig
      if 3 ≤ d2.length then some (digitsToNat g1, digitsToNat (d2.take 4)) else none
    else none

/-- Anchored attempt of `(\d{3,4})[x_\-](\d{3,4})` at the head of `l`, with the
greedy-then-backtrack behaviour of `\d{3,4}`. -/
def tryResAt (l : List Char) : Option (Nat × Nat) :=
  let d1 := l.takeWhile isDig
  if 4 ≤ d1.length then
    match trySep (d1.take 4) (l.drop 4) with
    | some p => some p
    | none => trySep (d1.take 3) (l.drop 3)
  else if d1.length = 3 then
    trySep (d1.take 3) (l.drop 3)
  else none

/-- First (leftmost) match of `re.findall(r'(\d{3,4})[x_\-](\d{3,4})', ...)`;
the source only uses the first match. -/
def resFirstMatch : List Char → Option (Nat × Nat)
  | [] => none
  | c :: t =>
    match tryResAt (c :: t) with
    | some p => some p
    | none => resFirstMatch t

/-- The country bonus of `get_stream_quality_score`. -/
def countryBonus (country : String) : Int :=
  let c := upperStr country
  if c = "US" || c = "USA" || c = "UNITED STATES" then 40
  else if c = "UK" || c = "CA" || c = "CANADA" then 20
  else if c = "INT" || c = "INTERNATIONAL" then 10
  else if c ≠ "" then 5
  else 0

/-- The resolution-keyword ladder of `get_stream_quality_score` on the
lower-cased URL. -/
def resKeywordBonus (url_lower : String) : Int :=
  if strContains url_lower "2160" || strContains url_lower "4k" || strContains url_lower "uhd" then 40
  else if strContains url_lower "1440" || strContains url_lower "2k" then 35
  else if strContains url_lower "1080" || strContains url_lower "fhd" || strContains url_lower "1920" then 30
  else if strContains url_lower "900" || strContains url_lower "720" || strContains url_lower "hd" || strContains url_lower "1280" then 20
  else if strContains url_lower "600" || strContains url_lower "480" || strContains url_lower "sd" || strContains url_lower "640" || strContains url_lower "854" then 10
  else if strContains url_lower "360" || strContains url_lower "240" || strContains url_lower "426" || strContains url_lower "320" then -10
  else 0

/-- The dimension ladder shared by the URL-pattern bonus and the metadata
resolution bonus. -/
def dimLadder (max_dimension : Nat) : Int :=
  if 2160 ≤ max_dimension then 40
  else if 1440 ≤ max_dimension then 35
  else if 1080 ≤ max_dimension then 30
  else if 900 ≤ max_dimension then 25
  else if 720 ≤ max_dimension then 20
  else if 600 ≤ max_dimension then 15
  else if 480 ≤ max_dimension then 10
  else if 360 ≤ max_dimension then 5
  else 0

/-- Bonus from a `WIDTHxHEIGHT`-shaped token in the URL (first match only). -/
def resPatternBonus (url_lower : String) : Int :=
  match resFirstMatch url_lower.data with
  | some (w, h) => dimLadder (Nat.max w h)
  | none => 0

/-- Bonus from structured resolution metadata. -/
def metaResBonus (resolution : Option Resolution) : Int :=
  match resolution with
  | some r => dimLadder (Nat.max r.width r.height)
  | none => 0

/-- `reliable_domains` of `get_stream_quality_score`. -/
def reliable_domains : List String :=
  ["i.mjh.nz", "iptv-org.github.io", "livetv.sx", "ustv247.tv", "moveonjoy.com"]

/-- Reliable-domain bonus (+15 for the first hit, no stacking). -/
def domainBonus (url_lower : String) : Int :=
  if reliable_domains.any (fun d => strContains url_lower d) then 15 else 0

/-- Penalty for `'backup'`/`'alt'` in the URL. -/
def lowIndicatorPenalty (url_lower : String) : Int :=
  if strContains url_lower "backup" || strContains url_lower "alt" then -5 else 0

/-- `get_stream_quality_score(url, stream_data, channel_title)`.  The Python
function returns the score and, when a mismatch is detected, writes the reason
into `stream_data['_mismatch_reason']`; the embedding returns the score paired
with the (possibly updated) stream record. -/
def get_stream_quality_score (url : String) (stream_data : StreamData)
    (channel_title : String := "") : Int × StreamData :=
  let url_lower := lowerStr url
  let m := is_channel_mismatch channel_title stream_data.name stream_data.title url
  let score : Int := if m.1 then 50 + m.2.2 else 50
  let stream_data := if m.1 then {stream_data with mismatchReason := m.2.1} else stream_data
  let score := score + countryBonus stream_data.country
  let score := score + resKeywordBonus url_lower
  let score := score + resPatternBonus url_lower
  let score := score + metaResBonus stream_data.resolution
  let score := score + domainBonus url_lower
  let score := score + lowIndicatorPenalty url_lower
  (score, stream_data)

/-- An HTTP response for a playlist fetch: status code and body text. -/
structure Resp where
  status : Nat
  body : String
deriving DecidableEq

/-- The network oracle.  `get` models `requests.get(url, ...)` for the playlist
(`none` = timeout / connection error / any other exception); `getStream`
models the streaming fetch of the first reference, returning the status code
and the length of the first chunk (`none` chunk = no data). -/
structure Net where
  get : String → Option Resp
  getStream : String → Option (Nat × Option Nat)

/-- `'/'.join(url.split('/')[:-1])`: the directory part of a URL. -/
def baseUrlOf (url : String) : List Char :=
  List.intercalate ['/'] ((splitCharL '/' url.data).dropLast)

/-- Extraction of the stream references from an m3u8 body: split on newlines,
strip, drop blanks and comment lines, resolve relative references against the
directory of the playlist URL. -/
def extractStreamUrls (url body : String) : List String :=
  ((splitCharL '\n' body.data).map trimL).filterMap (fun line =>
    if !line.isEmpty && !(List.isPrefixOf ['#'] line) then
      some (if ("http".data).isPrefixOf line then (⟨line⟩ : String)
            else ⟨baseUrlOf url ++ '/' :: line⟩)
    else none)

/-- `check_m3u8_link(url)`: the two-stage liveness probe.  Total on every URL;
every exception path of the source (`none` oracle results) yields `false`. -/
def check_m3u8_link (net : Net) (url : String) : Bool :=
  match net.get url with
  | none => false
  | some response =>
    if response.status ≠ 200 then false
    else if !strContains response.body "#EXTM3U" then false
    else
      match extractStreamUrls url response.body with
      | [] => false
      | test_url :: _ =>
        match net.getStream test_url with
        | none => false
        | some (status, chunk) =>
          if status ≠ 200 then false
          else
            match chunk with
            | none => false
            | some len => if len = 0 then false else true

/-- The `channel_mappings` table (identical in `find_replacement_stream` and
`should_upgrade_stream`), in source order. -/
def channel_mappings : List (String × List String) :=
  [("FOX NEWS", ["FOX NEWS", "FOXNEWS", "FOX", "FNC"]),
   ("CBSN", ["CBS NEWS", "CBSN", "CBS"]),
   ("ABC NEWS", ["ABC NEWS", "ABCNEWS", "ABC"]),
   ("CNN", ["CNN"]),
   ("OANN", ["OAN", "ONE AMERICA NEWS", "OANN"]),
   ("NEWSMAX TV", ["NEWSMAX", "NEWSMAX TV"]),
   ("MSNBC", ["MSNBC"]),
   ("BBC NEWS", ["BBC", "BBC NEWS", "BBC AMERICA", "BBCAMERICA"]),
   ("TBN", ["TBN", "TRINITY"]),
   ("TCM", ["TCM", "TURNER CLASSIC MOVIES"]),
   ("AMC", ["AMC"]),
   ("TNT", ["TNT"]),
   ("TBS", ["TBS"]),
   ("TRUTV", ["TRUTV", "TRU TV"]),
   ("HLN", ["HLN", "HEADLINE NEWS"]),
   ("CARTOON NETWORK", ["CARTOON NETWORK", "CN"]),
   ("NICKTOONS", ["NICKTOONS", "NICKELODEON"]),
   ("DISNEY CHANNEL", ["DISNEY CHANNEL", "DISNEY"]),
   ("ESPN", ["ESPN"]),
   ("ESPN2", ["ESPN2", "ESPN 2"]),
   ("FS1", ["FOX SPORTS 1", "FOX SPORTS1", "FS1", "FS 1"]),
   ("FOX SPORTS", ["FOX SPORTS"]),
   ("HBO", ["HBO"]),
   ("CINEMAX", ["CINEMAX"]),
   ("STADIUM", ["STADIUM"]),
   ("DISCOVERY", ["DISCOVERY", "DISCOVERY CHANNEL"]),
   ("TLC", ["TLC"]),
   ("NATIONAL GEOGRAPHIC", ["NAT GEO", "NATIONAL GEOGRAPHIC", "NATGEO"]),
   ("MTV", ["MTV"]),
   ("CHARGE", ["CHARGE!", "CHARGE"]),
   ("POP", ["POP", "POP TV"]),
   ("BOOMERANG", ["BOOMERANG"])]

/-- The search-term derivation: the alias list of the first mapping one of
whose aliases occurs in the cleaned channel name, else the cleaned name alone. -/
def searchTermsFor (channel_name_clean : String) : List String :=
  match channel_mappings.find? (fun kv => kv.2.any (fun t => strContains channel_name_clean t)) with
  | some kv => kv.2
  | none => [channel_name_clean]

/-- A match candidate built by `find_replacement_stream` (the candidate dict). -/
structure Candidate where
  name : String
  url : String
  country : String
  title : String
  stream_name : String
  stream_title : String
  quality_score : Int
  match_type : String
  mismatch_reason : Option String
deriving DecidableEq

/-- Build the candidate record for one feed stream (`candidate = {...}` in the
source); the mismatch reason is read back from the stream record after the
scoring call has annotated it. -/
def mkCandidate (channel_name : String) (s : StreamData) : Candidate :=
  let q := get_stream_quality_score s.url s channel_name
  { name := if s.name ≠ "" then s.name else s.title
    url := s.url
    country := s.country
    title := s.title
    stream_name := upperStr s.name
    stream_title := upperStr s.title
    quality_score := q.1
    match_type := ""
    mismatch_reason := q.2.mismatchReason }

/-- The classification loop of `find_replacement_stream`: filter out streams
with no URL or without the `.m3u8` marker, and partition the rest into
exact-name, exact-title and partial matches, preserving feed order.  The
result is `(exact_matches, title_matches, part_matches)`. -/
def classifyStreams (channel_name : String) (terms : List String) :
    List StreamData → List Candidate × List Candidate × List Candidate
  | [] => ([], [], [])
  | s :: rest =>
    let r := classifyStreams channel_name terms rest
    let nameU := upperStr s.name
    let titleU := upperStr s.title
    if s.url = "" || !strContains (lowerStr s.url) ".m3u8" then r
    else
      let cand := mkCandidate channel_name s
      match terms.find? (fun tm => (nameU ≠ "" && tm = nameU) || (titleU ≠ "" && tm = titleU)) with
      | some tm =>
        if nameU ≠ "" && tm = nameU then ({cand with match_type := "EXACT_NAME"} :: r.1, r.2.1, r.2.2)
        else (r.1, {cand with match_type := "EXACT_TITLE"} :: r.2.1, r.2.2)
      | none =>
        if terms.any (fun tm => nameU ≠ "" && strContains nameU tm) then
          (r.1, r.2.1, {cand with match_type := "PARTIAL_NAME"} :: r.2.2)
        else if terms.any (fun tm => titleU ≠ "" && strContains titleU tm) then
          (r.1, r.2.1, {cand with match_type := "PARTIAL_TITLE"} :: r.2.2)
        else r

/-- The score-descending ordering used to rank candidates. -/
def scoreGE (a b : Candidate) : Prop := b.quality_score ≤ a.quality_score

instance : DecidableRel scoreGE := fun a b =>
  inferInstanceAs (Decidable (b.quality_score ≤ a.quality_score))

/-- Stable sort by `quality_score` descending
(`candidates.sort(key=..., reverse=True)`; insertion sort is stable, so equal
scores keep feed order exactly as Python's stable sort does). -/
def sortDescByScore (l : List Candidate) : List Candidate :=
  l.insertionSort scoreGE

/-- The classification of the whole feed for one channel name, with the
derived search terms. -/
def classified (channel_name : String) (iptv_streams : List StreamData) :
    List Candidate × List Candidate × List Candidate :=
  classifyStreams channel_name (searchTermsFor (cleanSuffixes (upperStr channel_name))) iptv_streams

/-- The sorted exact-name tier (`exact_matches`). -/
def exactTier (channel_name : String) (iptv_streams : List StreamData) : List Candidate :=
  sortDescByScore (classified channel_name iptv_streams).1

/-- The sorted exact-title tier (`title_matches`). -/
def titleTier (channel_name : String) (iptv_streams : List StreamData) : List Candidate :=
  sortDescByScore (classified channel_name iptv_streams).2.1

/-- The sorted partial-match tier (`partial_matches`). -/
def partTier (channel_name : String) (iptv_streams : List StreamData) : List Candidate :=
  sortDescByScore (classified channel_name iptv_streams).2.2

/-- The ranked candidate list of `find_replacement_stream`: each tier sorted by
score descending, concatenated in tier priority order. -/
def buildCandidates (channel_name : String) (iptv_streams : List StreamData) : List Candidate :=
  exactTier channel_name iptv_streams ++ titleTier channel_name iptv_streams
    ++ partTier channel_name iptv_streams

/-- The probing loop of `find_replacement_stream`: first candidate whose URL
probes live wins. -/
def selectFirst (net : Net) : List Candidate → Option String
  | [] => none
  | c :: rest => if check_m3u8_link net c.url then some c.url else selectFirst net rest

/-- `find_replacement_stream(channel_name, iptv_streams)`. -/
def find_replacement_stream (net : Net) (channel_name : String)
    (iptv_streams : List StreamData) : Option String :=
  selectFirst net (buildCandidates channel_name iptv_streams)

/-- The best alternative tracked by `should_upgrade_stream`. -/
structure BestAlt where
  url : String
  score : Int
  name : String
  country : String
deriving DecidableEq

/-- The scanning loop of `should_upgrade_stream`: keep the maximal-scoring
matching alternative strictly above the running threshold, which starts at
`current_score + 20`. -/
def upgradeLoop (current_url channel_title : String) (terms : List String) :
    List StreamData → Option BestAlt → Int → Option BestAlt
  | [], best, _ => best
  | s :: rest, best, best_score =>
    let nameU := upperStr s.name
    let titleU := upperStr s.title
    let search_text := nameU ++ " " ++ titleU
    if !terms.any (fun t => strContains search_text t) then
      upgradeLoop current_url channel_title terms rest best best_score
    else if s.url = "" || !strContains (lowerStr s.url) ".m3u8" then
      upgradeLoop current_url channel_title terms rest best best_score
    else if s.url = current_url then
      upgradeLoop current_url channel_title terms rest best best_score
    else
      let alt_score := (get_stream_quality_score s.url s channel_title).1
      if best_score < alt_score then
        upgradeLoop current_url channel_title terms rest
          (some ⟨s.url, alt_score, if s.title ≠ "" then s.title else s.name, s.country⟩) alt_score
      else
        upgradeLoop current_url channel_title terms rest best best_score

/-- `should_upgrade_stream(current_url, current_country, channel_title,
iptv_streams)`: `(should_upgrade, new_url, reason)`. -/
def should_upgrade_stream (current_url current_country channel_title : String)
    (iptv_streams : List StreamData) : Bool × Option String × Option String :=
  let current_score :=
    (get_stream_quality_score current_url ⟨"", "", "", current_country, none, none⟩ channel_title).1
  let channel_name_clean := cleanSuffixes (upperStr channel_title)
  let terms := searchTermsFor channel_name_clean
  match upgradeLoop current_url channel_title terms iptv_streams none (current_score + 20) with
  | some b =>
    (true, some b.url,
     some ("Found better stream: " ++ b.name ++ " [" ++ b.country ++ "] (Score: "
       ++ toString b.score ++ " vs " ++ toString current_score ++ ", +"
       ++ toString (b.score - current_score) ++ " improvement)"))
  | none => (false, none, none)

/-- One element of `content['videos']`; only its `url` key is read or written
by the reconciler. -/
structure VideoObj where
  url : String
deriving DecidableEq

/-- The `content` dictionary of a catalog entry. -/
structure Content where
  videos : List VideoObj
deriving DecidableEq

/-- One catalog entry of `advancefeed.json` (`shortFormVideos` element). -/
structure Video where
  title : String
  id : String
  country : String
  content : Content
deriving DecidableEq

/-- The catalog file: `shortFormVideos` key (if present) and the `lastUpdated`
timestamp. -/
structure FeedData where
  shortFormVideos : Option (List Video)
  lastUpdated : Option String
deriving DecidableEq

/-- The per-run counters of `update_advancefeed`. -/
structure Counts where
  checked : Nat
  failed : Nat
  updated : Nat
  upgraded : Nat
deriving DecidableEq

/-- Pointwise sum of counters. -/
def addCounts (a b : Counts) : Counts :=
  ⟨a.checked + b.checked, a.failed + b.failed, a.updated + b.updated, a.upgraded + b.upgraded⟩

/-- Overwrite the URL of the first element of the entry's video list
(`video_obj['url'] = new_url`, where `video_obj = videos[0]`). -/
def setFirstUrl (v : Video) (u : String) : Video :=
  {v with content := ⟨match v.content.videos with
                      | [] => []
                      | vo :: rest => {vo with url := u} :: rest⟩}

/-- Truthiness of the optional `new_url` returned by `should_upgrade_stream`
(`if should_upgrade and new_url:`). -/
def truthyOptStr : Option String → Bool
  | none => false
  | some s => !s.isEmpty

/-- Reconciliation of a single catalog entry: the body of the
`for video in feed_data['shortFormVideos']` loop. -/
def processVideo (net : Net) (iptv_streams : List StreamData) (v : Video) : Video × Counts :=
  match v.content.videos with
  | [] => (v, ⟨1, 0, 0, 0⟩)
  | video_obj :: _rest =>
    let current_url := video_obj.url
    if current_url = "" then (v, ⟨1, 0, 0, 0⟩)
    else if check_m3u8_link net current_url then
      let r := should_upgrade_stream current_url v.country v.title iptv_streams
      if r.1 && truthyOptStr r.2.1 then
        let new_url := r.2.1.getD ""
        if check_m3u8_link net new_url then
          (setFirstUrl v new_url, ⟨1, 0, 1, 1⟩)
        else (v, ⟨1, 0, 0, 0⟩)
      else (v, ⟨1, 0, 0, 0⟩)
    else
      match find_replacement_stream net v.title iptv_streams with
      | some new_url => (setFirstUrl v new_url, ⟨1, 1, 1, 0⟩)
      | none => (v, ⟨1, 1, 0, 0⟩)

/-- Reconciliation of the whole entry list, in order. -/
def processVideos (net : Net) (iptv_streams : List StreamData) :
    List Video → List Video × Counts
  | [] => ([], ⟨0, 0, 0, 0⟩)
  | v :: rest =>
    let r := processVideo net iptv_streams v
    let rr := processVideos net iptv_streams rest
    (r.1 :: rr.1, addCounts r.2 rr.2)

/-- The outcome of one run of `update_advancefeed`: the in-memory catalog at
the end of the run, the file written (if any), and the run counters. -/
structure RunResult where
  finalFeed : Option FeedData
  written : Option FeedData
  checked : Nat
  failed : Nat
  updated : Nat
  upgraded : Nat
deriving DecidableEq

/-- `update_advancefeed()`.  `feed` is the result of loading
`advancefeed.json` (`none` = missing or undecodable file, which aborts the
run); `iptv_streams` is the candidate feed fetch result (the source maps a
failed fetch to the empty list, which also aborts the run); `now` is the
timestamp used for `lastUpdated`. -/
def update_advancefeed (net : Net) (feed : Option FeedData)
    (iptv_streams : List StreamData) (now : String) : RunResult :=
  match feed with
  | none => ⟨none, none, 0, 0, 0, 0⟩
  | some feed_data =>
    if iptv_streams.isEmpty then ⟨some feed_data, none, 0, 0, 0, 0⟩
    else
      match feed_data.shortFormVideos with
      | none => ⟨some feed_data, none, 0, 0, 0, 0⟩
      | some vids =>
        let r := processVideos net iptv_streams vids
        let feed_data' := {feed_data with shortFormVideos := some r.1}
        if 0 < r.2.updated then
          let w := {feed_data' with lastUpdated := some now}
          ⟨some w, some w, r.2.checked, r.2.failed, r.2.updated, r.2.upgraded⟩
        else
          ⟨some feed_data', none, r.2.checked, r.2.failed, r.2.updated, r.2.upgraded⟩

/-! ### Helper lemmas -/

theorem containsL_mono {p q : List Char} (hpq : p.isPrefixOf q = true) :
    ∀ hay, containsL hay q = true → containsL hay p = true := by
  intro hay
  induction hay with
  | nil =>
    intro h
    simp only [containsL, List.isEmpty_iff] at h ⊢
    subst h
    cases p with
    | nil => rfl
    | cons a l => simp [List.isPrefixOf] at hpq
  | cons c t ih =>
    intro h
    simp only [containsL, Bool.or_eq_true] at h ⊢
    rcases h with h | h
    · left
      rw [List.isPrefixOf_iff_prefix] at hpq h ⊢
      exact hpq.trans h
    · right
      exact ih h

theorem strContains_mono {pat1 pat2 : String} (h : pat1.data.isPrefixOf pat2.data = true)
    (s : String) : strContains s pat2 = true → strContains s pat1 = true :=
  containsL_mono h s.data

theorem selectFirst_eq_find (net : Net) (l : List Candidate) :
    selectFirst net l = (l.find? (fun c => check_m3u8_link net c.url)).map (fun c => c.url) := by
  induction l with
  | nil => rfl
  | cons c t ih =>
    by_cases h : check_m3u8_link net c.url = true
    · rw [selectFirst, if_pos h,
        @List.find?_cons_of_pos Candidate (fun c => check_m3u8_link net c.url) c t h]
      rfl
    · rw [selectFirst, if_neg h,
        @List.find?_cons_of_neg Candidate (fun c => check_m3u8_link net c.url) c t h, ih]

theorem selectFirst_live (net : Net) (l : List Candidate) (u : String) :
    selectFirst net l = some u → check_m3u8_link net u = true := by
  induction l with
  | nil => intro h; simp [selectFirst] at h
  | cons c t ih =>
    intro h
    rw [selectFirst] at h
    by_cases hc : check_m3u8_link net c.url = true
    · rw [if_pos hc] at h
      cases h
      exact hc
    · rw [if_neg hc] at h
      exact ih h

theorem find_replacement_live (net : Net) (cn : String) (ss : List StreamData) (u : String) :
    find_replacement_stream net cn ss = some u → check_m3u8_link net u = true :=
  selectFirst_live net (buildCandidates cn ss) u

theorem quality_score_frame (url : String) (sd : StreamData) (ct : String) :
    (get_stream_quality_score url sd ct).2.name = sd.name ∧
    (get_stream_quality_score url sd ct).2.title = sd.title ∧
    (get_stream_quality_score url sd ct).2.url = sd.url ∧
    (get_stream_quality_score url sd ct).2.country = sd.country ∧
    (get_stream_quality_score url sd ct).2.resolution = sd.resolution ∧
    ((get_stream_quality_score url sd ct).2.mismatchReason = sd.mismatchReason ∨
     ((is_channel_mismatch ct sd.name sd.title url).1 = true ∧
      (get_stream_quality_score url sd ct).2.mismatchReason =
        (is_channel_mismatch ct sd.name sd.title url).2.1)) := by
  by_cases h : (is_channel_mismatch ct sd.name sd.title url).1 = true
  · simp [get_stream_quality_score, h]
  · simp [get_stream_quality_score, h]

/-! ### C2: liveness probe -/

/-- Claim C2: `check_m3u8_link` is total (the embedding is a total function
over every oracle behaviour, with `none` covering timeouts, connection errors
and other exceptions) and returns `true` exactly when the playlist fetch
succeeds with status 200, the body carries the `#EXTM3U` marker, at least one
stream reference is extracted, and the first reference answers with status 200
and a first chunk of non-zero length.  Every failure case listed by the claim
(non-2xx status, timeout, connection failure, missing marker, no references,
failing or empty first reference) therefore yields `false`, and `true` is
possible only with marker, a reference and a non-empty chunk. -/
theorem check_m3u8_link_live_iff (net : Net) (url : String) :
    check_m3u8_link net url = true ↔
    ∃ resp, net.get url = some resp ∧ resp.status = 200 ∧
      strContains resp.body "#EXTM3U" = true ∧
      ∃ u0 rest, extractStreamUrls url resp.body = u0 :: rest ∧
        ∃ len, net.getStream u0 = some (200, some len) ∧ 0 < len := by
  constructor
  · intro h
    cases hg : net.get url with
    | none => simp [check_m3u8_link, hg] at h
    | some resp =>
      cases hex : extractStreamUrls url resp.body with
      | nil => simp [check_m3u8_link, hg, hex] at h
      | cons u0 rest =>
        cases hgs : net.getStream u0 with
        | none => simp [check_m3u8_link, hg, hex, hgs] at h
        | some p =>
          obtain ⟨st, chunk⟩ := p
          cases chunk with
          | none => simp [check_m3u8_link, hg, hex, hgs] at h
          | some len =>
            simp only [check_m3u8_link, hg, hex, hgs] at h
            by_cases hs : resp.status = 200
            · by_cases hm : strContains resp.body "#EXTM3U" = true
              · by_cases hst : st = 200
                · by_cases hlen : len = 0
                  · simp [hs, hm, hst, hlen] at h
                  · subst hst
                    exact ⟨resp, rfl, hs, hm, u0, rest, hex, len, hgs, Nat.pos_of_ne_zero hlen⟩
                · simp [hs, hm, hst] at h
              · simp [hs, hm] at h
            · simp [hs] at h
  · rintro ⟨resp, hg, hs, hm, u0, rest, hex, len, hgs, hlen⟩
    simp [check_m3u8_link, hg, hex, hgs, hs, hm, Nat.pos_iff_ne_zero.mp hlen]

/-- A concrete oracle serving one live playlist with one relative reference. -/
def probeNet : Net :=
  ⟨fun u => if u = "http://h/p.m3u8" then some ⟨200, "#EXTM3U\nseg.ts"⟩ else none,
   fun u => if u = "http://h/seg.ts" then some (200, some 4) else none⟩

/-- Witness for C2: the characterisation applies to a concrete oracle and URL. -/
theorem check_m3u8_link_live_iff_witness :
    check_m3u8_link probeNet "http://h/p.m3u8" = true :=
  (check_m3u8_link_live_iff probeNet "http://h/p.m3u8").mpr
    ⟨⟨200, "#EXTM3U\nseg.ts"⟩, by decide, rfl, by decide,
     "http://h/seg.ts", [], by decide, 4, by decide, by decide⟩

/-! ### C7: candidate record mutation -/

/-- Counterexample to claim C7 as stated: scoring a candidate for a
mismatching channel adds the `_mismatch_reason` annotation to the candidate
record, so the record is not left unchanged. -/
theorem quality_score_mutates_counterexample :
    (get_stream_quality_score "http://a/amc.m3u8"
        ⟨"AMC+", "", "http://a/amc.m3u8", "", none, none⟩ "AMC").2 ≠
      ⟨"AMC+", "", "http://a/amc.m3u8", "", none, none⟩ := by decide

theorem upgradeLoop_some (cur ct : String) (terms : List String) :
    ∀ (ss : List StreamData) (best : Option BestAlt) (bs : Int) (b : BestAlt),
      upgradeLoop cur ct terms ss best bs = some b →
      best = some b ∨
      ∃ s ∈ ss, s.url = b.url ∧ s.url ≠ cur ∧ s.url ≠ "" ∧
        strContains (lowerStr s.url) ".m3u8" = true ∧
        (get_stream_quality_score s.url s ct).1 = b.score ∧ bs < b.score := by
  intro ss
  induction ss with
  | nil =>
    intro best bs b h
    left
    exact h
  | cons s rest ih =>
    intro best bs b h
    rw [upgradeLoop] at h
    by_cases h1 : (!terms.any fun t =>
        strContains (upperStr s.name ++ " " ++ upperStr s.title) t) = true
    · rw [if_pos h1] at h
      rcases ih best bs b h with hb | ⟨s', hs', hrest⟩
      · exact Or.inl hb
      · exact Or.inr ⟨s', List.mem_cons_of_mem s hs', hrest⟩
    · rw [if_neg h1] at h
      by_cases h2 : (s.url = "" || !strContains (lowerStr s.url) ".m3u8") = true
      · rw [if_pos h2] at h
        rcases ih best bs b h with hb | ⟨s', hs', hrest⟩
        · exact Or.inl hb
        · exact Or.inr ⟨s', List.mem_cons_of_mem s hs', hrest⟩
      · rw [if_neg h2] at h
        by_cases h3 : s.url = cur
        · rw [if_pos h3] at h
          rcases ih best bs b h with hb | ⟨s', hs', hrest⟩
          · exact Or.inl hb
          · exact Or.inr ⟨s', List.mem_cons_of_mem s hs', hrest⟩
        · rw [if_neg h3] at h
          simp only [Bool.or_eq_true, not_or, Bool.not_eq_true'] at h2
          obtain ⟨hu1, hu2⟩ := h2
          by_cases h4 : bs < (get_stream_quality_score s.url s ct).1
          · rw [if_pos h4] at h
            rcases ih _ _ b h with hb | ⟨s', hs', hb1, hb2, hb3, hb4, hb5, hb6⟩
            · cases hb
              exact Or.inr ⟨s, List.mem_cons_self s rest, rfl, h3,
                by simpa using hu1, by simpa using hu2, rfl, h4⟩
            · exact Or.inr ⟨s', List.mem_cons_of_mem s hs',
                hb1, hb2, hb3, hb4, hb5, lt_trans h4 hb6⟩
          · rw [if_neg h4] at h
            rcases ih best bs b h with hb | ⟨s', hs', hrest⟩
            · exact Or.inl hb
            · exact Or.inr ⟨s', List.mem_cons_of_mem s hs', hrest⟩

theorem upgradeLoop_bounded (cur ct : String) (terms : List String) :
    ∀ (ss : List StreamData) (best : Option BestAlt) (bs : Int),
      (∀ s ∈ ss, (get_stream_quality_score s.url s ct).1 ≤ bs) →
      upgradeLoop cur ct terms ss best bs = best := by
  intro ss
  induction ss with
  | nil => intro best bs _; rfl
  | cons s rest ih =>
    intro best bs hall
    rw [upgradeLoop]
    have hs := hall s (List.mem_cons_self s rest)
    have hrest := fun s' hs' => hall s' (List.mem_cons_of_mem s hs')
    by_cases h1 : (!terms.any fun t =>
        strContains (upperStr s.name ++ " " ++ upperStr s.title) t) = true
    · rw [if_pos h1]; exact ih best bs hrest
    · rw [if_neg h1]
      by_cases h2 : (s.url = "" || !strContains (lowerStr s.url) ".m3u8") = true
      · rw [if_pos h2]; exact ih best bs hrest
      · rw [if_neg h2]
        by_cases h3 : s.url = cur
        · rw [if_pos h3]; exact ih best bs hrest
        · rw [if_neg h3]
          rw [if_neg (by omega)]
          exact ih best bs hrest

theorem should_upgrade_some_spec (cur cc ct : String) (ss : List StreamData) (nu : String) :
    (should_upgrade_stream cur cc ct ss).2.1 = some nu →
    nu ≠ cur ∧ nu ≠ "" ∧ strContains (lowerStr nu) ".m3u8" = true ∧
    ∃ s ∈ ss, s.url = nu ∧
      (get_stream_quality_score cur ⟨"", "", "", cc, none, none⟩ ct).1 + 20 <
        (get_stream_quality_score s.url s ct).1 := by
  intro h
  simp only [should_upgrade_stream] at h
  cases hl : upgradeLoop cur ct (searchTermsFor (cleanSuffixes (upperStr ct))) ss none
      ((get_stream_quality_score cur ⟨"", "", "", cc, none, none⟩ ct).1 + 20) with
  | none => rw [hl] at h; simp at h
  | some b =>
    rw [hl] at h
    simp only [Option.some.injEq] at h
    rcases upgradeLoop_some cur ct _ ss none _ b hl with hb | ⟨s, hs, h1, h2, h3, h4, h5, h6⟩
    · simp at hb
    · subst h
      rw [← h1]
      exact ⟨h2, h3, h4, s, hs, rfl, by omega⟩

/-! ### C4: upgrade margin -/

/-- Claim C4: an upgrade is proposed only when some feed stream — with a
`.m3u8` URL different from the current one — scores strictly more than the
current stream's score plus the fixed 20-point margin; in particular a current
stream scoring 60 with no candidate scoring 81 or more yields no proposal. -/
theorem should_upgrade_margin_spec :
    (∀ cur cc ct ss nu r, should_upgrade_stream cur cc ct ss = (true, some nu, r) →
      nu ≠ cur ∧ strContains (lowerStr nu) ".m3u8" = true ∧
      ∃ s ∈ ss, s.url = nu ∧
        (get_stream_quality_score cur ⟨"", "", "", cc, none, none⟩ ct).1 + 20 <
          (get_stream_quality_score s.url s ct).1)
    ∧ (∀ cur cc ct ss,
        (get_stream_quality_score cur ⟨"", "", "", cc, none, none⟩ ct).1 = 60 →
        (∀ s ∈ ss, (get_stream_quality_score s.url s ct).1 ≤ 80) →
        should_upgrade_stream cur cc ct ss = (false, none, none)) := by
  constructor
  · intro cur cc ct ss nu r h
    have h21 : (should_upgrade_stream cur cc ct ss).2.1 = some nu := by rw [h]
    obtain ⟨h1, _h2, h3, hex⟩ := should_upgrade_some_spec cur cc ct ss nu h21
    exact ⟨h1, h3, hex⟩
  · intro cur cc ct ss hcur hall
    simp only [should_upgrade_stream]
    rw [upgradeLoop_bounded cur ct _ ss none _ (by
      intro s hs
      have := hall s hs
      omega)]

/-- Witness for C4: both halves applied at concrete inputs — a stream scoring
130 against a current score of 50 is proposed (margin exceeded), and a stream
scoring 70 against a current score of 60 is not (margin 20 not exceeded). -/
theorem should_upgrade_margin_spec_witness :
    ("http://a/cnn2160.m3u8" ≠ "http://c/a.m3u8" ∧
      strContains (lowerStr "http://a/cnn2160.m3u8") ".m3u8" = true ∧
      ∃ s ∈ [(⟨"CNN", "", "http://a/cnn2160.m3u8", "US", none, none⟩ : StreamData)],
        s.url = "http://a/cnn2160.m3u8" ∧
        (get_stream_quality_score "http://c/a.m3u8" ⟨"", "", "", "", none, none⟩ "CNN").1 + 20 <
          (get_stream_quality_score s.url s "CNN").1)
    ∧ should_upgrade_stream "http://cur/a480.m3u8" "" "CNN"
        [⟨"CNN", "", "http://x/cnn_720.m3u8", "", none, none⟩] = (false, none, none) :=
  ⟨should_upgrade_margin_spec.1 "http://c/a.m3u8" "" "CNN"
      [⟨"CNN", "", "http://a/cnn2160.m3u8", "US", none, none⟩] "http://a/cnn2160.m3u8"
      (some "Found better stream: CNN [US] (Score: 130 vs 50, +80 improvement)") (by decide),
   should_upgrade_margin_spec.2 "http://cur/a480.m3u8" "" "CNN"
      [⟨"CNN", "", "http://x/cnn_720.m3u8", "", none, none⟩] (by decide) (by decide)⟩

/-- The exclusion test of the claim: a candidate has a URL carrying `.m3u8`. -/
def candUrlOk (c : Candidate) : Bool :=
  !(c.url == "") && strContains (lowerStr c.url) ".m3u8"

instance : IsTotal Candidate scoreGE :=
  ⟨fun a b => le_total b.quality_score a.quality_score⟩

instance : IsTrans Candidate scoreGE :=
  ⟨fun _ _ _ h1 h2 => le_trans h2 h1⟩

theorem candUrlOk_set_mt (c : Candidate) (mt : String) :
    candUrlOk {c with match_type := mt} = candUrlOk c := rfl

theorem classify_urlOk (cn : String) (terms : List String) : ∀ ss : List StreamData,
    ((classifyStreams cn terms ss).1.all candUrlOk
      && (classifyStreams cn terms ss).2.1.all candUrlOk
      && (classifyStreams cn terms ss).2.2.all candUrlOk) = true := by
  intro ss
  induction ss with
  | nil => rfl
  | cons s rest ih =>
    simp only [classifyStreams]
    split
    · exact ih
    · rename_i hguard
      have hok : candUrlOk (mkCandidate cn s) = true := by
        simp only [Bool.or_eq_true, not_or, Bool.not_eq_true, decide_eq_true_eq] at hguard
        simp only [candUrlOk, mkCandidate, Bool.and_eq_true, Bool.not_eq_true']
        exact ⟨by simpa using hguard.1, by simpa using hguard.2⟩
      simp only [Bool.and_eq_true] at ih
      obtain ⟨⟨ih1, ih2⟩, ih3⟩ := ih
      split
      · split
        · simp only [List.all_cons, Bool.and_eq_true, candUrlOk_set_mt]
          exact ⟨⟨⟨hok, ih1⟩, ih2⟩, ih3⟩
        · simp only [List.all_cons, Bool.and_eq_true, candUrlOk_set_mt]
          exact ⟨⟨ih1, hok, ih2⟩, ih3⟩
      · split
        · simp only [List.all_cons, Bool.and_eq_true, candUrlOk_set_mt]
          exact ⟨⟨ih1, ih2⟩, hok, ih3⟩
        · split
          · simp only [List.all_cons, Bool.and_eq_true, candUrlOk_set_mt]
            exact ⟨⟨ih1, ih2⟩, hok, ih3⟩
          · simp only [Bool.and_eq_true]
            exact ⟨⟨ih1, ih2⟩, ih3⟩

theorem classify_mt (cn : String) (terms : List String) : ∀ ss : List StreamData,
    ((classifyStreams cn terms ss).1.all (fun c => c.match_type == "EXACT_NAME")
      && (classifyStreams cn terms ss).2.1.all (fun c => c.match_type == "EXACT_TITLE")
      && (classifyStreams cn terms ss).2.2.all
          (fun c => c.match_type == "PARTIAL_NAME" || c.match_type == "PARTIAL_TITLE")) = true := by
  intro ss
  induction ss with
  | nil => rfl
  | cons s rest ih =>
    simp only [classifyStreams]
    split
    · exact ih
    · simp only [Bool.and_eq_true] at ih
      obtain ⟨⟨ih1, ih2⟩, ih3⟩ := ih
      split
      · split
        · simp only [List.all_cons, Bool.and_eq_true]
          exact ⟨⟨⟨rfl, ih1⟩, ih2⟩, ih3⟩
        · simp only [List.all_cons, Bool.and_eq_true]
          exact ⟨⟨ih1, rfl, ih2⟩, ih3⟩
      · split
        · simp only [List.all_cons, Bool.and_eq_true]
          exact ⟨⟨ih1, ih2⟩, rfl, ih3⟩
        · split
          · simp only [List.all_cons, Bool.and_eq_true]
            exact ⟨⟨ih1, ih2⟩, rfl, ih3⟩
          · simp only [Bool.and_eq_true]
            exact ⟨⟨ih1, ih2⟩, ih3⟩

theorem classify_len (cn : String) (terms : List String) : ∀ ss : List StreamData,
    (classifyStreams cn terms ss).1.length + (classifyStreams cn terms ss).2.1.length
      + (classifyStreams cn terms ss).2.2.length ≤ ss.length := by
  intro ss
  induction ss with
  | nil => simp [classifyStreams]
  | cons s rest ih =>
    simp only [classifyStreams, List.length_cons]
    split
    · omega
    · split
      · split
        · simp only [List.length_cons]; omega
        · simp only [List.length_cons]; omega
      · split
        · simp only [List.length_cons]; omega
        · split
          · simp only [List.length_cons]; omega
          · omega

theorem sortDesc_sorted (l : List Candidate) : List.Sorted scoreGE (sortDescByScore l) :=
  List.sorted_insertionSort scoreGE l

theorem sortDesc_all (p : Candidate → Bool) (l : List Candidate) (h : l.all p = true) :
    (sortDescByScore l).all p = true := by
  rw [List.all_eq_true] at h ⊢
  intro c hc
  exact h c ((List.perm_insertionSort scoreGE l).mem_iff.mp hc)

theorem sortDesc_length (l : List Candidate) : (sortDescByScore l).length = l.length :=
  (List.perm_insertionSort scoreGE l).length_eq

/-! ### C3: candidate ranking and selection -/

/-- Claim C3: the candidate list built by `find_replacement_stream` contains
only candidates with a non-empty URL carrying `.m3u8`; it is the concatenation
of the exact-name, exact-title and partial tiers, each internally sorted by
quality score descending; each feed stream contributes at most one candidate
(so the tier sizes sum to at most the feed size); and the function returns the
URL of the first candidate in that order whose probe is live (`find?`), or
`none` when no candidate probes live. -/
theorem find_replacement_ranking_spec (net : Net) (cn : String) (ss : List StreamData) :
    (buildCandidates cn ss).all candUrlOk = true
    ∧ buildCandidates cn ss = exactTier cn ss ++ titleTier cn ss ++ partTier cn ss
    ∧ List.Sorted scoreGE (exactTier cn ss)
    ∧ List.Sorted scoreGE (titleTier cn ss)
    ∧ List.Sorted scoreGE (partTier cn ss)
    ∧ (exactTier cn ss).all (fun c => c.match_type == "EXACT_NAME") = true
    ∧ (titleTier cn ss).all (fun c => c.match_type == "EXACT_TITLE") = true
    ∧ (partTier cn ss).all
        (fun c => c.match_type == "PARTIAL_NAME" || c.match_type == "PARTIAL_TITLE") = true
    ∧ (exactTier cn ss).length + (titleTier cn ss).length + (partTier cn ss).length ≤ ss.length
    ∧ find_replacement_stream net cn ss =
        ((buildCandidates cn ss).find? (fun c => check_m3u8_link net c.url)).map
          (fun c => c.url) := by
  have hurl := classify_urlOk cn (searchTermsFor (cleanSuffixes (upperStr cn))) ss
  have hmt := classify_mt cn (searchTermsFor (cleanSuffixes (upperStr cn))) ss
  simp only [Bool.and_eq_true] at hurl hmt
  refine ⟨?_, rfl, sortDesc_sorted _, sortDesc_sorted _, sortDesc_sorted _,
    sortDesc_all _ _ hmt.1.1, sortDesc_all _ _ hmt.1.2, sortDesc_all _ _ hmt.2,
    ?_, selectFirst_eq_find net _⟩
  · simp only [buildCandidates, exactTier, titleTier, partTier, classified,
      List.all_append, Bool.and_eq_true]
    exact ⟨⟨sortDesc_all _ _ hurl.1.1, sortDesc_all _ _ hurl.1.2⟩, sortDesc_all _ _ hurl.2⟩
  · simp only [exactTier, titleTier, partTier, classified, sortDesc_length]
    exact classify_len cn _ ss

theorem processVideo_spec (net : Net) (ss : List StreamData) (v : Video) :
    (processVideo net ss v).1 = v ∨
    ∃ u, check_m3u8_link net u = true ∧ (processVideo net ss v).1 = setFirstUrl v u := by
  rw [processVideo]
  cases hv : v.content.videos with
  | nil => left; rfl
  | cons vo rest =>
    dsimp only
    by_cases hc : vo.url = ""
    · rw [if_pos hc]; left; rfl
    · rw [if_neg hc]
      by_cases hw : check_m3u8_link net vo.url = true
      · rw [if_pos hw]
        by_cases hsu : ((should_upgrade_stream vo.url v.country v.title ss).1
            && truthyOptStr (should_upgrade_stream vo.url v.country v.title ss).2.1) = true
        · rw [if_pos hsu]
          by_cases hnk : check_m3u8_link net
              ((should_upgrade_stream vo.url v.country v.title ss).2.1.getD "") = true
          · rw [if_pos hnk]
            right
            refine ⟨_, hnk, ?_⟩
            simp [setFirstUrl, hv]
          · rw [if_neg hnk]; left; rfl
        · rw [if_neg hsu]; left; rfl
      · rw [if_neg hw]
        cases hf : find_replacement_stream net v.title ss with
        | some nu =>
          right
          exact ⟨nu, find_replacement_live net v.title ss nu hf, by simp [setFirstUrl, hv]⟩
        | none => left; rfl

/-! ### C1: URLs are mutated only after a positive liveness probe -/

/-- Claim C1: over a whole reconciliation run, each entry is either left
completely unchanged or has the URL of its first video object overwritten
with a URL `u` for which `check_m3u8_link` returned `true` immediately before
the assignment (both in the upgrade branch and in the replacement branch). -/
theorem reconciler_mutates_only_live (net : Net) (ss : List StreamData) (vids : List Video) :
    List.Forall₂
      (fun v v' => v' = v ∨
        ∃ u, check_m3u8_link net u = true ∧ v' = setFirstUrl v u)
      vids (processVideos net ss vids).1 := by
  induction vids with
  | nil => exact List.Forall₂.nil
  | cons v rest ih =>
    rw [processVideos]
    exact List.Forall₂.cons (processVideo_spec net ss v) ih

theorem setFirstUrl_ne (v : Video) (vo : VideoObj) (rest : List VideoObj) (u : String)
    (hv : v.content.videos = vo :: rest) (hne : u ≠ vo.url) : setFirstUrl v u ≠ v := by
  intro h
  have h2 := congrArg (fun x => x.content.videos) h
  simp only [setFirstUrl, hv, List.cons.injEq] at h2
  exact hne (congrArg VideoObj.url h2.1)

theorem processVideo_updated_zero (net : Net) (ss : List StreamData) (v : Video)
    (h : (processVideo net ss v).2.updated = 0) : (processVideo net ss v).1 = v := by
  rcases hv : v.content.videos with _ | ⟨vo, rest⟩
  · simp [processVideo, hv]
  · rw [processVideo, hv] at h ⊢
    dsimp only at h ⊢
    by_cases hc : vo.url = ""
    · rw [if_pos hc]
    · rw [if_neg hc] at h ⊢
      by_cases hw : check_m3u8_link net vo.url = true
      · rw [if_pos hw] at h ⊢
        by_cases hsu : ((should_upgrade_stream vo.url v.country v.title ss).1
            && truthyOptStr (should_upgrade_stream vo.url v.country v.title ss).2.1) = true
        · rw [if_pos hsu] at h ⊢
          by_cases hnk : check_m3u8_link net
              ((should_upgrade_stream vo.url v.country v.title ss).2.1.getD "") = true
          · rw [if_pos hnk] at h; simp at h
          · rw [if_neg hnk]
        · rw [if_neg hsu]
      · rw [if_neg hw] at h ⊢
        cases hf : find_replacement_stream net v.title ss with
        | some nu => rw [hf] at h; simp at h
        | none => rfl

theorem processVideo_updated_pos (net : Net) (ss : List StreamData) (v : Video)
    (h : 0 < (processVideo net ss v).2.updated) : (processVideo net ss v).1 ≠ v := by
  rcases hv : v.content.videos with _ | ⟨vo, rest⟩
  · rw [processVideo, hv] at h
    simp at h
  · rw [processVideo, hv] at h ⊢
    dsimp only at h ⊢
    by_cases hc : vo.url = ""
    · rw [if_pos hc] at h; simp at h
    · rw [if_neg hc] at h ⊢
      by_cases hw : check_m3u8_link net vo.url = true
      · rw [if_pos hw] at h ⊢
        by_cases hsu : ((should_upgrade_stream vo.url v.country v.title ss).1
            && truthyOptStr (should_upgrade_stream vo.url v.country v.title ss).2.1) = true
        · rw [if_pos hsu] at h ⊢
          by_cases hnk : check_m3u8_link net
              ((should_upgrade_stream vo.url v.country v.title ss).2.1.getD "") = true
          · rw [if_pos hnk]
            rw [Bool.and_eq_true] at hsu
            obtain ⟨hs1, hs2⟩ := hsu
            cases hnu : (should_upgrade_stream vo.url v.country v.title ss).2.1 with
            | none => rw [hnu] at hs2; simp [truthyOptStr] at hs2
            | some nu =>
              obtain ⟨hne, _, _, _⟩ :=
                should_upgrade_some_spec vo.url v.country v.title ss nu hnu
              exact setFirstUrl_ne v vo rest nu hv hne
          · rw [if_neg hnk] at h; simp at h
        · rw [if_neg hsu] at h; simp at h
      · rw [if_neg hw] at h ⊢
        cases hf : find_replacement_stream net v.title ss with
        | some nu =>
          have hlive := find_replacement_live net v.title ss nu hf
          have hne : nu ≠ vo.url := by
            intro he
            rw [he] at hlive
            exact hw hlive
          exact setFirstUrl_ne v vo rest nu hv hne
        | none => rw [hf] at h; simp at h

theorem processVideos_updated_zero (net : Net) (ss : List StreamData) :
    ∀ vids : List Video, (processVideos net ss vids).2.updated = 0 →
      (processVideos net ss vids).1 = vids := by
  intro vids
  induction vids with
  | nil => intro _; rfl
  | cons v rest ih =>
    intro h
    rw [processVideos] at h ⊢
    dsimp only [addCounts] at h
    rw [Nat.add_eq_zero] at h
    rw [processVideo_updated_zero net ss v h.1, ih h.2]

theorem processVideos_updated_pos (net : Net) (ss : List StreamData) :
    ∀ vids : List Video, 0 < (processVideos net ss vids).2.updated →
      (processVideos net ss vids).1 ≠ vids := by
  intro vids
  induction vids with
  | nil => intro h; simp [processVideos] at h
  | cons v rest ih =>
    intro h he
    rw [processVideos] at h he
    dsimp only [addCounts] at h
    simp only [List.cons.injEq] at he
    rcases Nat.pos_iff_ne_zero.mp h |> fun hsum => hsum with hsum
    by_cases h1 : (processVideo net ss v).2.updated = 0
    · have h2 : 0 < (processVideos net ss rest).2.updated := by omega
      exact ih h2 he.2
    · exact processVideo_updated_pos net ss v (Nat.pos_of_ne_zero h1) he.1

theorem update_updated_indep (net : Net) (f : Option FeedData) (ss : List StreamData)
    (n1 n2 : String) :
    (update_advancefeed net f ss n1).updated = (update_advancefeed net f ss n2).updated := by
  cases f with
  | none => rfl
  | some feed =>
    simp only [update_advancefeed]
    by_cases he : ss.isEmpty = true
    · rw [if_pos he, if_pos he]
    · rw [if_neg he, if_neg he]
      cases feed.shortFormVideos with
      | none => rfl
      | some vids =>
        dsimp only
        by_cases hupd : 0 < (processVideos net ss vids).2.updated
        · rw [if_pos hupd, if_pos hupd]
        · rw [if_neg hupd, if_neg hupd]

/-! ### C6: second-run behaviour -/

/-- Claim C6 (amended): when the first run performs zero updates, the catalog
file is not written, the catalog is unchanged, and a second run over the same
catalog and feed again performs zero updates.  (The original claim — that all
current URLs being live suffices for a quiet second run — is refuted by
`reconcile_second_run_counterexample`: a first-run upgrade can be followed by
a different upgrade on the second run, because the current stream is re-scored
without the feed metadata that justified the first upgrade.) -/
theorem reconcile_idempotent_of_no_update (net : Net) (feed : FeedData)
    (ss : List StreamData) (now1 now2 : String) :
    (update_advancefeed net (some feed) ss now1).updated = 0 →
    (update_advancefeed net (some feed) ss now1).written = none ∧
    (update_advancefeed net (some feed) ss now1).finalFeed = some feed ∧
    (update_advancefeed net (some feed) ss now2).updated = 0 := by
  intro h
  refine ⟨?_, ?_, (update_updated_indep net (some feed) ss now2 now1).trans h⟩ <;>
    simp only [update_advancefeed] at h ⊢ <;>
    by_cases he : ss.isEmpty = true
  · rw [if_pos he]
  · rw [if_neg he] at h ⊢
    cases hsfv : feed.shortFormVideos with
    | none => rfl
    | some vids =>
      rw [hsfv] at h
      dsimp only at h ⊢
      by_cases hupd : 0 < (processVideos net ss vids).2.updated
      · rw [if_pos hupd] at h
        dsimp only at h
        omega
      · rw [if_neg hupd]
  · rw [if_pos he]
  · rw [if_neg he] at h ⊢
    cases hsfv : feed.shortFormVideos with
    | none => rfl
    | some vids =>
      rw [hsfv] at h
      dsimp only at h ⊢
      by_cases hupd : 0 < (processVideos net ss vids).2.updated
      · rw [if_pos hupd] at h
        dsimp only at h
        omega
      · rw [if_neg hupd] at h ⊢
        dsimp only at h ⊢
        rw [processVideos_updated_zero net ss vids h]
        rw [← hsfv]

def oscNet : Net :=
  ⟨fun _ => some ⟨200, "#EXTM3U\nhttp://s/seg.ts"⟩, fun _ => some (200, some 5)⟩

def oscStreams : List StreamData :=
  [⟨"CNN", "", "http://a/cnn1080.m3u8", "US", none, none⟩,
   ⟨"CNN", "", "http://b/cnn2160.m3u8", "US", none, none⟩]

def oscFeed : FeedData :=
  ⟨some [⟨"CNN", "cnn1", "", ⟨[⟨"http://x/cnn.m3u8"⟩]⟩⟩], none⟩

/-- Counterexample to claim C6 as stated: every probe is live (the oracle
serves a live playlist for every URL), the feed is unchanged between runs, yet
the first run upgrades the entry (to the 2160p stream) and the second run
updates it again (to the 1080p stream), so the second run performs one update,
not zero. -/
theorem reconcile_second_run_counterexample :
    check_m3u8_link oscNet "http://x/cnn.m3u8" = true
    ∧ check_m3u8_link oscNet "http://b/cnn2160.m3u8" = true
    ∧ (update_advancefeed oscNet (some oscFeed) oscStreams "T1").updated = 1
    ∧ (update_advancefeed oscNet
        (update_advancefeed oscNet (some oscFeed) oscStreams "T1").written
        oscStreams "T2").updated = 1 := by
  refine ⟨rfl, rfl, rfl, rfl⟩

def quietStreams : List StreamData :=
  [⟨"ZZZ", "", "http://z/z.m3u8", "", none, none⟩]

/-- Witness for the amended C6: a concrete quiet run (no matching candidate)
after which the second run is also quiet. -/
theorem reconcile_idempotent_witness :
    (update_advancefeed oscNet (some oscFeed) quietStreams "T1").updated = 0
    ∧ (update_advancefeed oscNet (some oscFeed) quietStreams "T1").written = none
    ∧ (update_advancefeed oscNet (some oscFeed) quietStreams "T1").finalFeed = some oscFeed
    ∧ (update_advancefeed oscNet (some oscFeed) quietStreams "T2").updated = 0 := by
  refine ⟨rfl, ?_⟩
  exact reconcile_idempotent_of_no_update oscNet oscFeed quietStreams "T1" "T2" rfl

/-! ### C8: abort on empty feed, write policy -/

/-- Claim C8: with an empty (or failed, which the source maps to empty)
candidate feed the run aborts before reconciling any entry — nothing is
written, all counters are zero and the catalog is untouched; in every run the
catalog file is written exactly when at least one entry changed, and then the
written file is the full final snapshot, differs from the loaded catalog, and
carries `lastUpdated` set to the run timestamp. -/
theorem update_write_policy :
    (∀ net feed now, update_advancefeed net feed [] now =
        ⟨feed, none, 0, 0, 0, 0⟩)
    ∧ (∀ net f ss now d, (update_advancefeed net (some f) ss now).written = some d →
        0 < (update_advancefeed net (some f) ss now).updated ∧
        d.lastUpdated = some now ∧
        (update_advancefeed net (some f) ss now).finalFeed = some d ∧
        d.shortFormVideos ≠ f.shortFormVideos)
    ∧ (∀ net f ss now, (update_advancefeed net (some f) ss now).updated = 0 →
        (update_advancefeed net (some f) ss now).written = none) := by
  refine ⟨?_, ?_, ?_⟩
  · intro net feed now
    cases feed <;> rfl
  · intro net f ss now d hw
    simp only [update_advancefeed] at hw ⊢
    by_cases he : ss.isEmpty = true
    · rw [if_pos he] at hw
      simp at hw
    · rw [if_neg he] at hw ⊢
      cases hsfv : f.shortFormVideos with
      | none => rw [hsfv] at hw; simp at hw
      | some vids =>
        rw [hsfv] at hw
        dsimp only at hw ⊢
        by_cases hupd : 0 < (processVideos net ss vids).2.updated
        · rw [if_pos hupd] at hw ⊢
          dsimp only at hw ⊢
          rw [Option.some.injEq] at hw
          subst hw
          refine ⟨hupd, rfl, rfl, ?_⟩
          intro he2
          rw [Option.some.injEq] at he2
          exact processVideos_updated_pos net ss vids hupd he2
        · rw [if_neg hupd] at hw
          simp at hw
  · intro net f ss now h
    simp only [update_advancefeed] at h ⊢
    by_cases he : ss.isEmpty = true
    · rw [if_pos he]
    · rw [if_neg he] at h ⊢
      cases hsfv : f.shortFormVideos with
      | none => rfl
      | some vids =>
        rw [hsfv] at h
        dsimp only at h ⊢
        by_cases hupd : 0 < (processVideos net ss vids).2.updated
        · rw [if_pos hupd] at h
          dsimp only at h
          omega
        · rw [if_neg hupd]

def oscFeed1 : FeedData :=
  ⟨some [⟨"CNN", "cnn1", "", ⟨[⟨"http://b/cnn2160.m3u8"⟩]⟩⟩], some "T1"⟩

/-- Witness for C8: the empty-feed abort and the write-policy conclusions at
concrete inputs (a run that upgrades one entry and writes the snapshot). -/
theorem update_write_policy_witness :
    update_advancefeed oscNet (some oscFeed) [] "T0" = ⟨some oscFeed, none, 0, 0, 0, 0⟩
    ∧ (0 < (update_advancefeed oscNet (some oscFeed) oscStreams "T1").updated
       ∧ oscFeed1.lastUpdated = some "T1"
       ∧ (update_advancefeed oscNet (some oscFeed) oscStreams "T1").finalFeed = some oscFeed1
       ∧ oscFeed1.shortFormVideos ≠ oscFeed.shortFormVideos) :=
  ⟨update_write_policy.1 oscNet (some oscFeed) "T0",
   update_write_policy.2.1 oscNet oscFeed oscStreams "T1" oscFeed1 rfl⟩

theorem rulesLoop_first_match (clean nameU titleU urlL : String) :
    ∀ (rs : List MismatchRule) (r : MismatchRule),
      rs.find? (fun rl => strContains clean rl.key) = some r →
      avoidHit r nameU titleU urlL = true →
      rulesLoop clean nameU titleU urlL rs = some (true, some r.reason, r.penalty_score) := by
  intro rs
  induction rs with
  | nil => intro r h; simp at h
  | cons r0 rest ih =>
    intro r hfind hhit
    by_cases hk : strContains clean r0.key = true
    · rw [List.find?_cons_of_pos rest hk, Option.some.injEq] at hfind
      subst hfind
      rw [rulesLoop, if_pos (by rw [hk, hhit]; rfl)]
    · rw [List.find?_cons_of_neg rest hk] at hfind
      rw [rulesLoop, if_neg (by rw [Bool.and_eq_true]; intro hc; exact hk hc.1)]
      exact ih r hfind hhit

/-! ### C5: per-brand avoid list -/

/-- Claim C5 (amended): when the Fox-News-specific first layer does not fire
and `r` is the FIRST rule of the avoid-list table (in table order) whose key
occurs in the cleaned channel title, a hit of one of `r`'s avoid terms in the
candidate's name, title or URL makes the detector report a mismatch with
exactly `r`'s reason and penalty.  (The original claim — that this holds for
every table key contained in the title — is refuted by
`avoid_list_counterexample`: the Fox-News guard preempts the table with a
different penalty, and an earlier rule can shadow a later one.) -/
theorem avoid_list_first_rule_spec (ct n t u : String) (r : MismatchRule) :
    foxGuard (cleanSuffixes (upperStr ct)) (upperStr n) (upperStr t) (lowerStr u) = none →
    mismatch_rules.find? (fun rl => strContains (cleanSuffixes (upperStr ct)) rl.key) = some r →
    avoidHit r (upperStr n) (upperStr t) (lowerStr u) = true →
    is_channel_mismatch ct n t u = (true, some r.reason, r.penalty_score) := by
  intro hfox hfind hhit
  simp only [is_channel_mismatch]
  rw [hfox, rulesLoop_first_match _ _ _ _ mismatch_rules r hfind hhit]

def amcRule : MismatchRule :=
  ⟨"AMC", ["AMC+", "PLUS", "AMCPLUS", "SUNDANCE", "IFC", "SHUDDER", "ACORN"],
   -40, "AMC secondary service, not main channel"⟩

/-- Witness for the amended C5: the spec's own concrete instance
`detect("AMC", "AMC+", "", url)` reports the avoid-list reason with
penalty −40. -/
theorem avoid_list_first_rule_witness :
    is_channel_mismatch "AMC" "AMC+" "" "http://a/amc.m3u8" =
      (true, some "AMC secondary service, not main channel", -40) :=
  avoid_list_first_rule_spec "AMC" "AMC+" "" "http://a/amc.m3u8" amcRule
    (by decide) (by decide) (by decide)

def foxNewsRule : MismatchRule :=
  ⟨"FOX NEWS",
   ["FOX BUSINESS", "FOX SPORTS", "FOX DEPORTES", "FOX SOCCER", "FS1", "FS2", "FOX MOVIES", "FOX LIFE"],
   -50, "Wrong Fox network"⟩

/-- Counterexample to claim C5 as stated: channel "FOX NEWS" is a key of the
avoid-list table and the candidate name "FOX SPORTS" is one of that brand's
avoid terms, yet the detector does not return the brand rule's
`("Wrong Fox network", -50)` — the earlier Fox-News keyword guard fires first
and returns `("Fox channel but not Fox News", -55)`. -/
theorem avoid_list_counterexample :
    foxNewsRule ∈ mismatch_rules
    ∧ strContains (cleanSuffixes (upperStr "FOX NEWS")) foxNewsRule.key = true
    ∧ avoidHit foxNewsRule (upperStr "FOX SPORTS") (upperStr "") (lowerStr "") = true
    ∧ is_channel_mismatch "FOX NEWS" "FOX SPORTS" "" "" ≠
        (true, some foxNewsRule.reason, foxNewsRule.penalty_score)
    ∧ is_channel_mismatch "FOX NEWS" "FOX SPORTS" "" "" =
        (true, some "Fox channel but not Fox News", -55) := by
  refine ⟨by decide, by decide, by decide, by decide, by decide⟩

/-! ### C9: resolution monotonicity -/

/-- Claim C9: for two candidates identical in every input except that one URL
contains `480p` where the other contains `1080p` — with neither URL containing
any other resolution keyword or a `WIDTHxHEIGHT` token, and the URL-dependent
mismatch, reliable-domain and backup/alt checks agreeing on both (they are
otherwise identical) — the `1080p` candidate scores strictly higher. -/
theorem score_resolution_monotonic (u1 u2 : String) (sd : StreamData) (ct : String) :
    strContains (lowerStr u1) "480p" = true →
    strContains (lowerStr u2) "1080p" = true →
    (∀ k ∈ (["2160", "4k", "uhd", "1440", "2k", "1080", "fhd", "1920", "900", "720",
             "hd", "1280", "600", "sd", "640", "854", "360", "240", "426", "320"] : List String),
       strContains (lowerStr u1) k = false) →
    (∀ k ∈ (["2160", "4k", "uhd", "1440", "2k", "fhd", "1920", "900", "720",
             "hd", "1280", "600", "480", "sd", "640", "854", "360", "240", "426", "320"] : List String),
       strContains (lowerStr u2) k = false) →
    resFirstMatch (lowerStr u1).data = none →
    resFirstMatch (lowerStr u2).data = none →
    is_channel_mismatch ct sd.name sd.title u1 = is_channel_mismatch ct sd.name sd.title u2 →
    domainBonus (lowerStr u1) = domainBonus (lowerStr u2) →
    lowIndicatorPenalty (lowerStr u1) = lowIndicatorPenalty (lowerStr u2) →
    (get_stream_quality_score u1 sd ct).1 < (get_stream_quality_score u2 sd ct).1 := by
  intro h1 h2 hex1 hex2 hp1 hp2 hmm hdom halt
  have c480 : strContains (lowerStr u1) "480" = true :=
    strContains_mono (by decide) (lowerStr u1) h1
  have c1080 : strContains (lowerStr u2) "1080" = true :=
    strContains_mono (by decide) (lowerStr u2) h2
  have k1 : resKeywordBonus (lowerStr u1) = 10 := by
    rw [resKeywordBonus]
    rw [hex1 "2160" (by simp), hex1 "4k" (by simp), hex1 "uhd" (by simp),
        hex1 "1440" (by simp), hex1 "2k" (by simp), hex1 "1080" (by simp),
        hex1 "fhd" (by simp), hex1 "1920" (by simp), hex1 "900" (by simp),
        hex1 "720" (by simp), hex1 "hd" (by simp), hex1 "1280" (by simp),
        hex1 "600" (by simp), c480]
    simp
  have k2 : resKeywordBonus (lowerStr u2) = 30 := by
    rw [resKeywordBonus]
    rw [hex2 "2160" (by simp), hex2 "4k" (by simp), hex2 "uhd" (by simp),
        hex2 "1440" (by simp), hex2 "2k" (by simp), c1080]
    simp
  have p1 : resPatternBonus (lowerStr u1) = 0 := by rw [resPatternBonus, hp1]
  have p2 : resPatternBonus (lowerStr u2) = 0 := by rw [resPatternBonus, hp2]
  simp only [get_stream_quality_score]
  rw [hmm, k1, k2, p1, p2, hdom, halt]
  omega

/-- Witness for C9 at concrete URLs differing only in `480p` vs `1080p`. -/
theorem score_resolution_monotonic_witness :
    (get_stream_quality_score "http://e/v480p.m3u8"
        ⟨"", "", "", "", none, none⟩ "").1 <
      (get_stream_quality_score "http://e/v1080p.m3u8"
        ⟨"", "", "", "", none, none⟩ "").1 :=
  score_resolution_monotonic "http://e/v480p.m3u8" "http://e/v1080p.m3u8"
    ⟨"", "", "", "", none, none⟩ ""
    (by decide) (by decide) (by decide) (by decide) (by decide) (by decide)
    (by decide) (by decide) (by decide)

theorem foxGuard_reasons (a b c d : String) (r : Bool × Option String × Int)
    (h : foxGuard a b c d = some r) :
    r.2.1 = some "Local Fox affiliate, not Fox News Channel" ∨
    r.2.1 = some "Fox channel but not Fox News" := by
  rw [foxGuard] at h
  split at h
  · split at h
    · injection h with h2
      subst h2
      left
      rfl
    · split at h
      · split at h
        · injection h with h2
          subst h2
          right
          rfl
        · exact absurd h (by simp)
      · exact absurd h (by simp)
  · exact absurd h (by simp)

def espnRule : MismatchRule :=
  ⟨"ESPN",
   ["DEPORTES", "DEPORTIVAS", "SPANISH", "LATINO", "PLUS", "ESPN+", "ESPN2", "ESPN 2",
    "ESPNU", "ESPN U", "COLLEGE"],
   -50, "Secondary/International ESPN variant"⟩

def espn2Rule : MismatchRule :=
  ⟨"ESPN2", ["DEPORTES", "SPANISH", "LATINO", "PLUS"], -50, "Wrong ESPN variant"⟩

def laterRules : List MismatchRule := mismatch_rules.drop 3

theorem rulesLoop_mem (clean nU tU uL : String) :
    ∀ (rs : List MismatchRule) (r : Bool × Option String × Int),
      rulesLoop clean nU tU uL rs = some r →
      ∃ rl ∈ rs, r = (true, some rl.reason, rl.penalty_score) := by
  intro rs
  induction rs with
  | nil => intro r h; simp [rulesLoop] at h
  | cons r0 rest ih =>
    intro r h
    rw [rulesLoop] at h
    by_cases hc : (strContains clean r0.key && avoidHit r0 nU tU uL) = true
    · rw [if_pos hc] at h
      injection h with h2
      exact ⟨r0, List.mem_cons_self r0 rest, h2.symm⟩
    · rw [if_neg hc] at h
      obtain ⟨rl, hm, he⟩ := ih r h
      exact ⟨rl, List.mem_cons_of_mem r0 hm, he⟩

theorem espn2_hit_implies_espn_hit (clean nU tU uL : String) :
    (strContains clean "ESPN2" && avoidHit espn2Rule nU tU uL) = true →
    (strContains clean "ESPN" && avoidHit espnRule nU tU uL) = true := by
  intro h
  rw [Bool.and_eq_true] at h ⊢
  obtain ⟨hk, hh⟩ := h
  refine ⟨strContains_mono (by decide) clean hk, ?_⟩
  simp only [avoidHit, espn2Rule, List.any_eq_true] at hh
  obtain ⟨tm, htm, hp⟩ := hh
  simp only [avoidHit, espnRule, List.any_eq_true]
  refine ⟨tm, ?_, hp⟩
  simp only [List.mem_cons, List.not_mem_nil, or_false] at htm ⊢
  rcases htm with rfl | rfl | rfl | rfl <;> decide

theorem rulesLoop_table_ne (clean nU tU uL : String)
    (r : Bool × Option String × Int)
    (hr : rulesLoop clean nU tU uL mismatch_rules = some r) :
    (r.2.1 == some "Wrong ESPN variant") = false := by
  rw [show mismatch_rules = foxNewsRule :: espnRule :: espn2Rule :: laterRules from rfl] at hr
  rw [rulesLoop] at hr
  by_cases c1 : (strContains clean foxNewsRule.key && avoidHit foxNewsRule nU tU uL) = true
  · rw [if_pos c1] at hr
    injection hr with h2
    subst h2
    decide
  · rw [if_neg c1] at hr
    rw [rulesLoop] at hr
    by_cases c2 : (strContains clean espnRule.key && avoidHit espnRule nU tU uL) = true
    · rw [if_pos c2] at hr
      injection hr with h2
      subst h2
      decide
    · rw [if_neg c2] at hr
      rw [rulesLoop] at hr
      by_cases c3 : (strContains clean espn2Rule.key && avoidHit espn2Rule nU tU uL) = true
      · exact absurd (espn2_hit_implies_espn_hit clean nU tU uL c3) c2
      · rw [if_neg c3] at hr
        obtain ⟨rl, hmem, he⟩ := rulesLoop_mem clean nU tU uL laterRules r hr
        subst he
        simp only [laterRules, mismatch_rules, List.drop, List.mem_cons,
          List.not_mem_nil, or_false] at hmem
        rcases hmem with rfl | rfl | rfl | rfl | rfl | rfl | rfl | rfl | rfl | rfl | rfl | rfl <;>
          decide

theorem genericLoop_mem (clean nU : String) :
    ∀ (inds : List String) (r : Bool × Option String × Int),
      genericLoop clean nU inds = some r →
      ∃ ind ∈ inds, r = (true, some ("Secondary channel variant (" ++ ind ++ ")"), -25) := by
  intro inds
  induction inds with
  | nil => intro r h; simp [genericLoop] at h
  | cons ind rest ih =>
    intro r h
    rw [genericLoop] at h
    by_cases hc : ((strContains nU clean && strContains nU ind)
        && ["2", "3", "PLUS", "+", "EXTRA", "XTRA"].contains ind) = true
    · rw [if_pos hc] at h
      injection h with h2
      exact ⟨ind, List.mem_cons_self ind rest, h2.symm⟩
    · rw [if_neg hc] at h
      obtain ⟨i2, hm, he⟩ := ih r h
      exact ⟨i2, List.mem_cons_of_mem ind hm, he⟩

/-! ### C10: the ESPN2 rule is shadowed by the ESPN rule -/

/-- Claim C10: because table keys are matched by substring in table order and
`"ESPN"` precedes `"ESPN2"`, the channel title `"ESPN2"` is decided by the
`"ESPN"` rule (whose avoid list contains `"ESPN2"`), so
`is_channel_mismatch("ESPN2", "ESPN2", "", url)` reports penalty −50 with
reason "Secondary/International ESPN variant" for every URL; and the
dedicated `"ESPN2"` rule is never the rule applied for any input — its reason
string "Wrong ESPN variant" can never be returned (any title containing
`"ESPN2"` contains `"ESPN"`, and the `"ESPN2"` avoid terms are a subset of the
`"ESPN"` avoid terms, so whenever the `"ESPN2"` rule would fire, the earlier
`"ESPN"` rule fires first). -/
theorem espn2_rule_shadowed :
    (∀ url, is_channel_mismatch "ESPN2" "ESPN2" "" url =
      (true, some "Secondary/International ESPN variant", -50))
    ∧ (∀ ct n t u, ((is_channel_mismatch ct n t u).2.1 == some "Wrong ESPN variant") = false) := by
  constructor
  · intro url
    simp only [is_channel_mismatch]
    have hfox : foxGuard (cleanSuffixes (upperStr "ESPN2")) (upperStr "ESPN2") (upperStr "")
        (lowerStr url) = none := by
      rw [foxGuard, if_neg (by decide)]
    rw [hfox]
    have hloop : rulesLoop (cleanSuffixes (upperStr "ESPN2")) (upperStr "ESPN2") (upperStr "")
        (lowerStr url) mismatch_rules =
        some (true, some "Secondary/International ESPN variant", -50) := by
      rw [show mismatch_rules = foxNewsRule :: espnRule :: espn2Rule :: laterRules from rfl]
      rw [rulesLoop, if_neg (by
        intro hc
        rw [Bool.and_eq_true] at hc
        exact absurd hc.1 (by decide))]
      rw [rulesLoop, if_pos (by
        rw [Bool.and_eq_true]
        refine ⟨by decide, ?_⟩
        simp only [avoidHit, espnRule, List.any_eq_true]
        refine ⟨"ESPN2", by decide, ?_⟩
        rw [show strContains (upperStr "ESPN2") "ESPN2" = true from by decide]
        rfl)]
      rfl
    rw [hloop]
  · intro ct n t u
    simp only [is_channel_mismatch]
    cases hfox : foxGuard (cleanSuffixes (upperStr ct)) (upperStr n) (upperStr t) (lowerStr u) with
    | some r =>
      dsimp only
      rcases foxGuard_reasons _ _ _ _ r hfox with h | h <;> rw [h] <;> decide
    | none =>
      dsimp only
      cases hr : rulesLoop (cleanSuffixes (upperStr ct)) (upperStr n) (upperStr t) (lowerStr u)
          mismatch_rules with
      | some r =>
        dsimp only
        exact rulesLoop_table_ne _ _ _ _ r hr
      | none =>
        dsimp only
        cases hg : genericLoop (cleanSuffixes (upperStr ct)) (upperStr n) secondary_indicators with
        | some r =>
          dsimp only
          obtain ⟨ind, hmem, he⟩ := genericLoop_mem _ _ secondary_indicators r hg
          subst he
          simp only [secondary_indicators, List.mem_cons, List.not_mem_nil, or_false] at hmem
          rcases hmem with rfl | rfl | rfl | rfl | rfl | rfl | rfl | rfl | rfl | rfl | rfl |
            rfl | rfl | rfl <;> decide
        | none => rfl
